import Mathlib

/-!
Verification of the innogate access-control layer.

The definitions below are a shallow embedding of the repository's
authorization code:

* `server/src/lib/fga.ts` — the relationship-graph (FGA) client wrappers
  (`canUserViewDocument`, `grantDocumentAccess`, `batchCheckDocumentAccess`);
* `server/src/routes/pdf-suggestions.ts` — the batch authorization filter of
  the suggestion flow, and `cosineSimilarity`;
* `server/src/routes/pdfs.ts` — the upload and share-accept handlers that
  perform the dual writes (relational row plus FGA tuple);
* `server/src/db/schema.ts` — the relational rows the handlers touch;
* `server/src/routes/pdf-rag.ts` — the relational authorization gate of the
  RAG load handler.

The external FGA service itself is a black box; it is modelled by an oracle
`FgaCheck` giving the outcome of each network check call (a result or a
transport error), and by a `FgaWriteOk` oracle saying which tuple writes the
service accepts.  State mutated by the handlers (relational tables, the
graph's tuple set) is passed explicitly.
-/

/-- Outcome of one `fgaClient.check` network call: either a response whose
`allowed` field may be absent (`undefined` in TypeScript), or a thrown
transport/service error. -/
inductive FgaResult where
  | ok (allowed : Option Bool)
  | err
deriving DecidableEq

/-- Oracle for the external FGA service's check endpoint: maps
(user, relation, object) to the outcome of the network call. -/
abbrev FgaCheck := String → String → String → FgaResult

/-- User reference written into FGA tuples, `user:EMAIL` in the source. -/
def userTag (email : String) : String := "user:" ++ email

/-- Object reference written into FGA tuples, `doc:ID` in the source. -/
def docTag (documentId : String) : String := "doc:" ++ documentId

/-- The source's `allowed || false` coalescing of a possibly-undefined
boolean field. -/
def orFalse (allowed : Option Bool) : Bool := allowed.getD false

/-- Embedding of `canUserViewDocument` (server/src/lib/fga.ts): one check of
the `viewer` relation; a response yields `allowed || false`, and a thrown
error is caught and reported as `false`.  Totality of this Lean function
mirrors the source's catch-all around the check call. -/
def canUserViewDocument (check : FgaCheck) (userEmail documentId : String) : Bool :=
  match check (userTag userEmail) "viewer" (docTag documentId) with
  | FgaResult.ok allowed => orFalse allowed
  | FgaResult.err => false

/-- Semantics of JavaScript `Promise.all` over the batch of check calls: if
any call in the list rejects the whole combined promise rejects (`none`);
otherwise it resolves with the list of responses. -/
def promiseAll : List FgaResult → Option (List (Option Bool))
  | [] => some []
  | FgaResult.ok a :: rest => (promiseAll rest).map (fun as => a :: as)
  | FgaResult.err :: _ => none

/-- Semantics of building the `results` record by successive assignments
`results[docId] = v` in list order: a later assignment to the same key
overwrites an earlier one, so the value at `d` is the value of the last pair
whose key is `d`. -/
def buildResults : List (String × Bool) → String → Option Bool
  | [], _ => none
  | p :: rest, d =>
    match buildResults rest d with
    | some v => some v
    | none => if d == p.1 then some p.2 else none

/-- Embedding of `batchCheckDocumentAccess` (server/src/lib/fga.ts): all
checks are dispatched together and awaited with `Promise.all`; on success
each document's entry is `allowed || false`, and if the combined promise
rejects the catch handler assigns `false` to every document of the batch.
The returned record is modelled as a partial map from document id to
boolean. -/
def batchCheckDocumentAccess (check : FgaCheck) (userEmail : String)
    (documentIds : List String) : String → Option Bool :=
  let responses := documentIds.map (fun docId => check (userTag userEmail) "viewer" (docTag docId))
  match promiseAll responses with
  | some alloweds => buildResults (documentIds.zip (alloweds.map orFalse))
  | none => buildResults (documentIds.map (fun docId => (docId, false)))

/-- Embedding of the authorization-filter step of the suggest route
(server/src/routes/pdf-suggestions.ts, lines 66-84 and the
`totalAccessiblePdfs` field of the reply): when `FGA_STORE_ID` is configured
the candidate ids are narrowed by the batch check (a missing entry is falsy);
the reply's count field is the length of the post-filter list
`authorizedPdfs`.  Returns (authorizedPdfIds, totalAccessiblePdfs). -/
def suggestAuthorization (configured : Bool) (check : FgaCheck) (userEmail : String)
    (accessiblePdfIds : List String) : List String × Nat :=
  let authorizedPdfIds :=
    if configured then
      let pdfIds := accessiblePdfIds
      let accessResults := batchCheckDocumentAccess check userEmail pdfIds
      pdfIds.filter (fun i => (accessResults i).getD false)
    else accessiblePdfIds
  let authorizedPdfs := accessiblePdfIds.filter (fun pdf => authorizedPdfIds.contains pdf)
  (authorizedPdfIds, authorizedPdfs.length)

/-- Check oracle of an unconfigured or unreachable FGA service: every
network check call fails (degraded mode, no `FGA_STORE_ID`). -/
def degradedCheck : FgaCheck := fun _ _ _ => FgaResult.err

/-- Embedding of `cosineSimilarity` (server/src/routes/pdf-suggestions.ts):
the guard throws when the vectors differ in length; otherwise the loop
accumulates the dot product and the two sums of squares, the norms are the
square roots of those sums, and a zero norm short-circuits to 0 before the
division.  JavaScript numbers are modelled as real numbers. -/
noncomputable def cosineSimilarity (vecA vecB : List ℝ) : Except String ℝ :=
  if vecA.length ≠ vecB.length then
    Except.error "Vectors must have the same length"
  else
    let dotProduct := (vecA.zip vecB).foldl (fun acc p => acc + p.1 * p.2) 0
    let normA := Real.sqrt (vecA.foldl (fun acc a => acc + a * a) 0)
    let normB := Real.sqrt (vecB.foldl (fun acc b => acc + b * b) 0)
    if normA = 0 ∨ normB = 0 then Except.ok 0
    else Except.ok (dotProduct / (normA * normB))

/-! Relational rows (server/src/db/schema.ts).  Uuids and timestamps are
opaque to the handlers, so ids are strings and times are naturals; the
database-generated values (fresh uuids, `new Date()`) enter the handlers as
parameters. -/

/-- Row of the `users` table. -/
structure UserRow where
  id : String
  email : String
deriving DecidableEq

/-- Row of the `uploaded_pdfs` table. -/
structure PdfRow where
  id : String
  ownerId : String
  workId : String
  workTitle : Option String
  orcidId : Option String
  researcherName : Option String
  fileName : String
  originalName : String
  uploadedAt : Nat
deriving DecidableEq

/-- Row of the `pdf_share_requests` table. -/
structure ShareRequestRow where
  id : String
  pdfId : String
  fromUserId : String
  toUserId : String
deriving DecidableEq

/-- Row of the `pdf_access` table (the Access Grant). -/
structure AccessRow where
  pdfId : String
  userId : String
deriving DecidableEq

/-- Row of the `linked_researchers` table. -/
structure LinkedResearcherRow where
  userId : String
  orcidId : String
  researcherName : Option String
deriving DecidableEq

/-- The relational tables the pdf routes touch. -/
structure Db where
  users : List UserRow
  uploadedPdfs : List PdfRow
  pdfShareRequests : List ShareRequestRow
  pdfAccess : List AccessRow
  linkedResearchers : List LinkedResearcherRow
deriving DecidableEq

/-- A relationship tuple of the external graph: (user ref, relation, object
ref), e.g. ("user:alice", "viewer", "doc:42"). -/
abbrev FgaTuple := String × String × String

/-- Combined system state: relational database plus the graph's tuple set. -/
structure SysState where
  db : Db
  tuples : List FgaTuple
deriving DecidableEq

/-- Oracle saying which tuple writes the external FGA service accepts;
`false` means the write call throws. -/
abbrev FgaWriteOk := String → String → String → Bool

/-- Embedding of `grantDocumentAccess` (server/src/lib/fga.ts): one tuple
write against the service; on success the tuple is added to the graph, on
failure the error is rethrown to the caller (`throw error` in the catch). -/
def grantDocumentAccess (writeOk : FgaWriteOk) (tuples : List FgaTuple)
    (userEmail documentId relation : String) : Except Unit (List FgaTuple) :=
  if writeOk (userTag userEmail) relation (docTag documentId) then
    Except.ok (tuples ++ [(userTag userEmail, relation, docTag documentId)])
  else
    Except.error ()

/-- Check of a direct relation against the graph's tuple set.  Modelled from
the spec: the external service's `check` for an assignable relation
(`owner`, `viewer`) holds exactly when the corresponding tuple has been
written (spec sections 3 and 4.1: the graph is a black box storing
(user, relation, object) facts). -/
def checkRelation (tuples : List FgaTuple) (userEmail relation documentId : String) : Bool :=
  decide ((userTag userEmail, relation, docTag documentId) ∈ tuples)

/-- Reply of the upload handler: the JSON payload fields that matter here,
or an HTTP error code. -/
inductive UploadResp where
  | success (id : String) (workId : String) (originalName : String) (uploadedAt : Nat)
  | failure (code : Nat)
deriving DecidableEq

/-- Reply of the share-accept handler. -/
inductive AcceptResp where
  | success
  | failure (code : Nat)
deriving DecidableEq

/-- JavaScript `a || b` on optional strings: a present value wins, an absent
(undefined/null) one falls through. -/
def jsOr (newVal oldVal : Option String) : Option String :=
  match newVal with
  | some v => some v
  | none => oldVal

/-- Embedding of the authorization step of the POST /api/pdf-rag/load
handler (server/src/routes/pdf-rag.ts): the user is looked up by email, the
pdf row by id, and access is decided from the relational tables alone —
the requester owns the pdf or holds a pdf_access row — with `none` for the
not-found replies (404) and `some false` for the 403 denial.  The function
takes no graph oracle: the handler performs no FGA call in any
configuration mode. -/
def ragLoadAuthorized (db : Db) (userEmail pdfId : String) : Option Bool :=
  match db.users.find? (fun u => u.email == userEmail) with
  | none => none
  | some user =>
    match db.uploadedPdfs.find? (fun p => p.id == pdfId) with
    | none => none
    | some pdf =>
      some (pdf.ownerId == user.id ||
        (db.pdfAccess.find? (fun a => a.pdfId == pdfId && a.userId == user.id)).isSome)

/-- Embedding of the POST /api/pdfs/upload handler
(server/src/routes/pdfs.ts, lines 101-216).  The multipart file is assumed
present (its original filename is `origName`); the fresh uuid filename, the
fresh row uuid and the current time come in as parameters.  Control flow
follows the source: validate, look the user up by email, look for an
existing (owner, workId) row; the update branch rewrites the found row in
place; the create branch inserts the row and then — only when
`FGA_STORE_ID` is configured — writes the owner tuple and then the viewer
tuple inside one try/catch, so a failed first write skips the second and a
failure of either leaves the upload reply unchanged. -/
def uploadHandler (configured : Bool) (writeOk : FgaWriteOk) (st : SysState)
    (userEmail workId : String) (workTitle orcidId researcherName : Option String)
    (origName uniqueFileName newId : String) (now : Nat) : SysState × UploadResp :=
  if workId == "" then (st, UploadResp.failure 400)
  else if userEmail == "" then (st, UploadResp.failure 401)
  else
    match st.db.users.find? (fun u => u.email == userEmail) with
    | none => (st, UploadResp.failure 404)
    | some user =>
      match st.db.uploadedPdfs.find? (fun p => p.ownerId == user.id && p.workId == workId) with
      | some existing =>
        let updated : PdfRow :=
          { existing with
            fileName := uniqueFileName
            originalName := origName
            uploadedAt := now
            workTitle := jsOr workTitle existing.workTitle
            orcidId := jsOr orcidId existing.orcidId
            researcherName := jsOr researcherName existing.researcherName }
        let db1 := { st.db with
          uploadedPdfs := st.db.uploadedPdfs.map (fun p => if p.id == existing.id then updated else p) }
        ({ st with db := db1 },
          UploadResp.success updated.id updated.workId updated.originalName updated.uploadedAt)
      | none =>
        let uploaded : PdfRow :=
          { id := newId, ownerId := user.id, workId := workId,
            workTitle := workTitle, orcidId := orcidId, researcherName := researcherName,
            fileName := uniqueFileName, originalName := origName, uploadedAt := now }
        let db1 := { st.db with uploadedPdfs := st.db.uploadedPdfs ++ [uploaded] }
        let tuples1 :=
          if configured then
            match grantDocumentAccess writeOk st.tuples userEmail uploaded.id "owner" with
            | Except.ok t1 =>
              match grantDocumentAccess writeOk t1 userEmail uploaded.id "viewer" with
              | Except.ok t2 => t2
              | Except.error _ => t1
            | Except.error _ => st.tuples
          else st.tuples
        ({ db := db1, tuples := tuples1 },
          UploadResp.success uploaded.id uploaded.workId uploaded.originalName uploaded.uploadedAt)

/-- Researcher-linking step of the accept handler
(server/src/routes/pdfs.ts, lines 506-526): when the shared pdf names an
ORCID and a researcher and the accepter has no link for that ORCID yet, a
`linked_researchers` row is inserted (conflict-do-nothing). -/
def linkResearcher (db : Db) (userId : String) (pdf : PdfRow) : Db :=
  match pdf.orcidId, pdf.researcherName with
  | some orcid, some name =>
    if (db.linkedResearchers.find?
          (fun l => l.userId == userId && l.orcidId == orcid)).isSome then
      db
    else
      { db with linkedResearchers := db.linkedResearchers ++
          [{ userId := userId, orcidId := orcid, researcherName := some name }] }
  | _, _ => db

/-- Embedding of the POST /api/pdfs/share-requests/:id/accept handler
(server/src/routes/pdfs.ts, lines 467-559).  Control flow follows the
source: look the accepter up by email, find the share request addressed to
that user, join its pdf row (an unsatisfiable join — impossible under the
foreign key — would surface as the catch-all 500), link the researcher if
the pdf names one and no link exists, insert the Access Grant row with
conflict-do-nothing, write the viewer tuple when `FGA_STORE_ID` is
configured (a throw is caught and swallowed), and finally delete the share
request row. -/
def acceptHandler (configured : Bool) (writeOk : FgaWriteOk) (st : SysState)
    (userEmail reqId : String) : SysState × AcceptResp :=
  if userEmail == "" then (st, AcceptResp.failure 401)
  else
    match st.db.users.find? (fun u => u.email == userEmail) with
    | none => (st, AcceptResp.failure 404)
    | some user =>
      match st.db.pdfShareRequests.find? (fun r => r.id == reqId && r.toUserId == user.id) with
      | none => (st, AcceptResp.failure 404)
      | some shareRequest =>
        match st.db.uploadedPdfs.find? (fun p => p.id == shareRequest.pdfId) with
        | none => (st, AcceptResp.failure 500)
        | some pdf =>
          let db1 : Db := linkResearcher st.db user.id pdf
          let db2 :=
            if db1.pdfAccess.any (fun a => a.pdfId == shareRequest.pdfId && a.userId == user.id) then
              db1
            else
              { db1 with pdfAccess := db1.pdfAccess ++
                  [{ pdfId := shareRequest.pdfId, userId := user.id }] }
          let tuples1 :=
            if configured then
              match grantDocumentAccess writeOk st.tuples userEmail shareRequest.pdfId "viewer" with
              | Except.ok t => t
              | Except.error _ => st.tuples
            else st.tuples
          let db3 := { db2 with
            pdfShareRequests := db2.pdfShareRequests.filter (fun r => !(r.id == reqId)) }
          ({ db := db3, tuples := tuples1 }, AcceptResp.success)

/-! Helper lemmas about the embedded primitives. -/

theorem promiseAll_length {l : List FgaResult} {as : List (Option Bool)}
    (h : promiseAll l = some as) : as.length = l.length := by
  induction l generalizing as with
  | nil =>
    simp [promiseAll] at h
    subst h
    rfl
  | cons r rest ih =>
    cases r with
    | ok a =>
      simp only [promiseAll, Option.map_eq_some'] at h
      obtain ⟨bs, hbs, hcons⟩ := h
      subst hcons
      simp [ih hbs]
    | err => simp [promiseAll] at h

theorem promiseAll_eq_none_of_err_mem {l : List FgaResult}
    (h : FgaResult.err ∈ l) : promiseAll l = none := by
  induction l with
  | nil => cases h
  | cons r rest ih =>
    cases r with
    | ok a =>
      have hrest : FgaResult.err ∈ rest := by
        rcases List.mem_cons.mp h with h1 | h2
        · exact absurd h1 (by simp)
        · exact h2
      simp [promiseAll, ih hrest]
    | err => simp [promiseAll]

theorem buildResults_isSome (pairs : List (String × Bool)) (d : String) :
    (buildResults pairs d).isSome = true ↔ d ∈ pairs.map Prod.fst := by
  induction pairs with
  | nil => simp [buildResults]
  | cons p rest ih =>
    cases hres : buildResults rest d with
    | some v =>
      have hmem : d ∈ rest.map Prod.fst := ih.mp (by rw [hres]; rfl)
      simp [buildResults, hres, hmem]
    | none =>
      have hnot : d ∉ rest.map Prod.fst := by
        intro hm
        have hsome := ih.mpr hm
        rw [hres] at hsome
        exact Bool.false_ne_true hsome
      by_cases hd : d = p.1
      · subst hd
        simp [buildResults, hres]
      · simp [buildResults, hres, hd, hnot]

theorem buildResults_map_const_false (ids : List String) (d : String) :
    buildResults (ids.map (fun i => (i, false))) d = if d ∈ ids then some false else none := by
  induction ids with
  | nil => simp [buildResults]
  | cons i rest ih =>
    by_cases hd : d ∈ rest
    · simp [buildResults, ih, hd]
    · by_cases hdi : d = i
      · subst hdi
        simp [buildResults, ih, hd]
      · simp [buildResults, ih, hd, hdi]

theorem foldl_sumSq_of_all_zero (l : List ℝ) (c : ℝ) (h : ∀ x ∈ l, x = 0) :
    l.foldl (fun acc x => acc + x * x) c = c := by
  induction l generalizing c with
  | nil => rfl
  | cons x rest ih =>
    have hx : x = 0 := h x (List.mem_cons_self x rest)
    have hrest : ∀ y ∈ rest, y = 0 := fun y hy => h y (List.mem_cons_of_mem x hy)
    simp only [List.foldl_cons, hx, mul_zero, add_zero]
    exact ih c hrest

theorem contains_filter_eq (ids : List String) (p : String → Bool) :
    ∀ x ∈ ids, ((ids.filter p).contains x) = p x := by
  intro x _
  by_cases hp : p x = true
  · have hmem : x ∈ ids.filter p := List.mem_filter.mpr ⟨by assumption, hp⟩
    rw [hp]
    exact List.elem_iff.mpr hmem
  · have hb : p x = false := Bool.eq_false_iff.mpr hp
    have hmem : x ∉ ids.filter p := by
      intro hm
      exact hp (List.mem_filter.mp hm).2
    rw [hb]
    exact Bool.eq_false_iff.mpr (fun hc => hmem (List.elem_iff.mp hc))

theorem linkResearcher_pdfAccess (db : Db) (uid : String) (pdf : PdfRow) :
    (linkResearcher db uid pdf).pdfAccess = db.pdfAccess := by
  unfold linkResearcher
  split
  · split <;> rfl
  · rfl

theorem linkResearcher_pdfShareRequests (db : Db) (uid : String) (pdf : PdfRow) :
    (linkResearcher db uid pdf).pdfShareRequests = db.pdfShareRequests := by
  unfold linkResearcher
  split
  · split <;> rfl
  · rfl

/-! Concrete fixtures used by counterexamples and witnesses. -/

/-- Check oracle where only the check for document d2 fails and every other
check succeeds with allowed = true. -/
def c1check : FgaCheck := fun _ _ obj =>
  if obj == "doc:d2" then FgaResult.err else FgaResult.ok (some true)

/-- Check oracle authorizing every document except D2. -/
def c2check : FgaCheck := fun _ _ obj =>
  if obj == "doc:D2" then FgaResult.ok (some false) else FgaResult.ok (some true)

/-- Two registered users and otherwise empty tables. -/
def demoDb : Db :=
  { users := [{ id := "u1", email := "alice" }, { id := "u2", email := "bob" }]
    uploadedPdfs := []
    pdfShareRequests := []
    pdfAccess := []
    linkedResearchers := [] }

/-- System state with `demoDb` and no tuples written yet. -/
def demoState : SysState := { db := demoDb, tuples := [] }

/-- Write oracle of a healthy FGA service: every tuple write succeeds. -/
def allWrites : FgaWriteOk := fun _ _ _ => true

/-- Write oracle of a failing FGA service: every tuple write throws. -/
def noWrites : FgaWriteOk := fun _ _ _ => false

/-- The pdf row stored in `acceptDb`. -/
def sharedPdf : PdfRow :=
  { id := "doc1", ownerId := "u1", workId := "W1", workTitle := none, orcidId := none,
    researcherName := none, fileName := "file1", originalName := "f.pdf", uploadedAt := 5 }

/-- State with a document owned by alice and a pending share request
addressed to bob. -/
def acceptDb : Db :=
  { users := [{ id := "u1", email := "alice" }, { id := "u2", email := "bob" }]
    uploadedPdfs := [{ id := "doc1", ownerId := "u1", workId := "W1", workTitle := none,
                       orcidId := none, researcherName := none, fileName := "file1",
                       originalName := "f.pdf", uploadedAt := 5 }]
    pdfShareRequests := [{ id := "req1", pdfId := "doc1", fromUserId := "u1", toUserId := "u2" }]
    pdfAccess := []
    linkedResearchers := [] }

/-- System state with `acceptDb` and no tuples written yet. -/
def acceptState : SysState := { db := acceptDb, tuples := [] }

/-- Unfolding equation of the batch check (the let bindings zeta-reduced). -/
theorem batchCheckDocumentAccess_eq (check : FgaCheck) (userEmail : String)
    (documentIds : List String) :
    batchCheckDocumentAccess check userEmail documentIds =
      match promiseAll (documentIds.map
          (fun docId => check (userTag userEmail) "viewer" (docTag docId))) with
      | some alloweds => buildResults (documentIds.zip (alloweds.map orFalse))
      | none => buildResults (documentIds.map (fun docId => (docId, false))) := rfl

/-- C1 counterexample: with a check oracle that fails only for document d2
and authorizes every other document, the batch [d1, d2, d3] reports d1 as
not authorized — yet the same oracle authorizes d1 when the failing
document is not in the batch.  So a single check failure does not leave the
other documents of the batch unaffected, refuting the claim. -/
theorem c1_per_item_fail_closed_counterexample :
    batchCheckDocumentAccess c1check "u" ["d1", "d2", "d3"] "d1" = some false ∧
    batchCheckDocumentAccess c1check "u" ["d1", "d3"] "d1" = some true :=
  ⟨by decide, by decide⟩

/-- C1 (amended): in batchCheckDocumentAccess, a failure of the graph check
for any document in the batch causes every document of that batch to be
reported as not authorized (the single catch around the awaited
Promise.all assigns false to all of them). -/
theorem c1_batch_error_fails_entire_batch (check : FgaCheck) (userEmail : String)
    (documentIds : List String)
    (h : ∃ d0 ∈ documentIds, check (userTag userEmail) "viewer" (docTag d0) = FgaResult.err)
    (d : String) (hd : d ∈ documentIds) :
    batchCheckDocumentAccess check userEmail documentIds d = some false := by
  obtain ⟨d0, hd0, herr⟩ := h
  have hmem : FgaResult.err ∈ documentIds.map
      (fun docId => check (userTag userEmail) "viewer" (docTag docId)) :=
    List.mem_map.mpr ⟨d0, hd0, herr⟩
  rw [batchCheckDocumentAccess_eq, promiseAll_eq_none_of_err_mem hmem]
  show buildResults (documentIds.map (fun docId => (docId, false))) d = some false
  rw [buildResults_map_const_false]
  simp [hd]

/-- Witness for the amended C1 theorem at a concrete batch. -/
theorem c1_batch_error_fails_entire_batch_witness :
    batchCheckDocumentAccess c1check "u" ["d1", "d2", "d3"] "d3" = some false :=
  c1_batch_error_fails_entire_batch c1check "u" ["d1", "d2", "d3"]
    ⟨"d2", by decide, by decide⟩ "d3" (by decide)

/-- C3: with the authorization service unconfigured, no operation touches
the graph and the relational layer alone governs access.  Upload and
share-accept in degraded mode are independent of the graph service's write
behavior and leave the tuple set unchanged (the grant call sites branch on
the configuration state); the suggest filter in degraded mode passes the
relational candidates through unchanged; and the RAG load authorization is
decided from the relational tables alone — its embedding takes no graph
oracle at all — so a relationally-authorized document load (owner or
access-row holder) is not denied. -/
theorem c3_degraded_mode_relational_only :
    (∀ (writeOk writeOk' : FgaWriteOk) (st : SysState) (userEmail workId : String)
        (workTitle orcidId researcherName : Option String)
        (origName uniqueFileName newId : String) (now : Nat),
      uploadHandler false writeOk st userEmail workId workTitle orcidId researcherName
          origName uniqueFileName newId now
        = uploadHandler false writeOk' st userEmail workId workTitle orcidId researcherName
          origName uniqueFileName newId now ∧
      (uploadHandler false writeOk st userEmail workId workTitle orcidId researcherName
          origName uniqueFileName newId now).1.tuples = st.tuples) ∧
    (∀ (writeOk writeOk' : FgaWriteOk) (st : SysState) (userEmail reqId : String),
      acceptHandler false writeOk st userEmail reqId
        = acceptHandler false writeOk' st userEmail reqId ∧
      (acceptHandler false writeOk st userEmail reqId).1.tuples = st.tuples) ∧
    (∀ (check : FgaCheck) (userEmail : String) (ids : List String),
      suggestAuthorization false check userEmail ids = (ids, ids.length)) ∧
    (∀ (db : Db) (userEmail pdfId : String) (user : UserRow) (pdf : PdfRow),
      db.users.find? (fun u => u.email == userEmail) = some user →
      db.uploadedPdfs.find? (fun p => p.id == pdfId) = some pdf →
      (pdf.ownerId = user.id ∨
        (db.pdfAccess.find? (fun a => a.pdfId == pdfId && a.userId == user.id)).isSome = true) →
      ragLoadAuthorized db userEmail pdfId = some true) := by
  refine ⟨?_, ?_, ?_, ?_⟩
  · intro writeOk writeOk' st userEmail workId workTitle orcidId researcherName origName
      uniqueFileName newId now
    constructor
    · rfl
    · unfold uploadHandler
      repeat' split
      all_goals first
      | rfl
      | simp_all
  · intro writeOk writeOk' st userEmail reqId
    constructor
    · rfl
    · unfold acceptHandler
      repeat' split
      all_goals first
      | rfl
      | simp_all
  · intro check userEmail ids
    unfold suggestAuthorization
    have hself : ids.filter (fun pdf => ids.contains pdf) = ids :=
      List.filter_eq_self.mpr (fun a ha => List.elem_iff.mpr ha)
    simp [hself]
  · intro db userEmail pdfId user pdf hu hp hauth
    unfold ragLoadAuthorized
    rw [hu, hp]
    rcases hauth with h1 | h2
    · simp [h1]
    · simp [h2]

/-- Witness for the C3 theorem: alice, the owner of doc1, is authorized to
load it by the relational gate alone. -/
theorem c3_degraded_mode_relational_only_witness :
    ragLoadAuthorized acceptDb "alice" "doc1" = some true :=
  c3_degraded_mode_relational_only.2.2.2 acceptDb "alice" "doc1"
    { id := "u1", email := "alice" } sharedPdf rfl rfl (Or.inl rfl)

/-- C7: canUserViewDocument reports a transport or service error of the
check call as false (not authorized); totality of the embedding — the
function returns a boolean for every oracle — mirrors the catch-all that
keeps the error from propagating to the caller. -/
theorem c7_check_error_reported_false (check : FgaCheck) (userEmail documentId : String)
    (h : check (userTag userEmail) "viewer" (docTag documentId) = FgaResult.err) :
    canUserViewDocument check userEmail documentId = false := by
  unfold canUserViewDocument
  rw [h]

/-- Witness for the C7 theorem with the always-failing oracle. -/
theorem c7_check_error_reported_false_witness :
    canUserViewDocument degradedCheck "alice" "doc9" = false :=
  c7_check_error_reported_false degradedCheck "alice" "doc9" rfl

/-- C9: on both the success path and the error path, the record returned by
batchCheckDocumentAccess has an entry exactly for the identifiers of the
input list — no input identifier is missing and no extra key is present. -/
theorem c9_batch_result_keys (check : FgaCheck) (userEmail : String)
    (documentIds : List String) (d : String) :
    (batchCheckDocumentAccess check userEmail documentIds d).isSome = true ↔
      d ∈ documentIds := by
  rw [batchCheckDocumentAccess_eq]
  cases hall : promiseAll (documentIds.map
      (fun docId => check (userTag userEmail) "viewer" (docTag docId))) with
  | some alloweds =>
    have hlen : documentIds.length ≤ (alloweds.map orFalse).length := by
      rw [List.length_map, promiseAll_length hall, List.length_map]
    rw [buildResults_isSome, List.map_fst_zip _ _ hlen]
  | none =>
    rw [buildResults_isSome]
    simp

/-- Unfolding equation of the suggest filter in configured mode. -/
theorem suggestAuthorization_true_eq (check : FgaCheck) (userEmail : String)
    (ids : List String) :
    suggestAuthorization true check userEmail ids =
      (ids.filter (fun i => (batchCheckDocumentAccess check userEmail ids i).getD false),
       (ids.filter (fun pdf =>
          (ids.filter (fun i =>
            (batchCheckDocumentAccess check userEmail ids i).getD false)).contains pdf)).length) := rfl

/-- C2 counterexample: with candidates [D1, D2, D3] and an oracle that
graph-authorizes exactly D1 and D3, the suggest flow returns the authorized
ids [D1, D3] in candidate order but surfaces the count 2 — the number of
documents left AFTER the graph filter — not the claimed pre-filter
candidate count 3. -/
theorem c2_total_candidates_counterexample :
    (suggestAuthorization true c2check "u" ["D1", "D2", "D3"]).1 = ["D1", "D3"] ∧
    (suggestAuthorization true c2check "u" ["D1", "D2", "D3"]).2 = 2 ∧
    (suggestAuthorization true c2check "u" ["D1", "D2", "D3"]).2 ≠ 3 :=
  ⟨by decide, by decide, by decide⟩

/-- C2 (amended): for every user and candidate list, the suggest flow in
configured mode returns the graph-authorized subset preserving candidate
order (a sublist of the candidates whose members are exactly the candidates
the batch check marks authorized), together with the count of documents
that remained AFTER the graph filter (the length of the authorized
subset), not the pre-filter candidate count. -/
theorem c2_filter_order_and_authorized_count (check : FgaCheck) (userEmail : String)
    (ids : List String) :
    List.Sublist (suggestAuthorization true check userEmail ids).1 ids ∧
    (∀ d, d ∈ (suggestAuthorization true check userEmail ids).1 ↔
      d ∈ ids ∧ (batchCheckDocumentAccess check userEmail ids d).getD false = true) ∧
    (suggestAuthorization true check userEmail ids).2 =
      (suggestAuthorization true check userEmail ids).1.length := by
  rw [suggestAuthorization_true_eq]
  refine ⟨List.filter_sublist _, fun d => List.mem_filter, ?_⟩
  have hcong := List.filter_congr
    (contains_filter_eq ids (fun i => (batchCheckDocumentAccess check userEmail ids i).getD false))
  rw [hcong]

/-- Unfolding equation of cosineSimilarity (let bindings zeta-reduced). -/
theorem cosineSimilarity_eq (a b : List ℝ) :
    cosineSimilarity a b =
      if a.length ≠ b.length then Except.error "Vectors must have the same length"
      else if Real.sqrt (a.foldl (fun acc x => acc + x * x) 0) = 0 ∨
              Real.sqrt (b.foldl (fun acc x => acc + x * x) 0) = 0 then Except.ok 0
      else Except.ok (((a.zip b).foldl (fun acc p => acc + p.1 * p.2) 0) /
        (Real.sqrt (a.foldl (fun acc x => acc + x * x) 0) *
         Real.sqrt (b.foldl (fun acc x => acc + x * x) 0))) := rfl

/-- C10: cosineSimilarity throws exactly when the two vectors differ in
length; on equal lengths it is total (always produces a value), and when
either vector has zero norm — equivalently, all its components are zero —
it returns 0 instead of dividing by zero. -/
theorem c10_cosine_total_and_guarded (a b : List ℝ) :
    ((∃ msg, cosineSimilarity a b = Except.error msg) ↔ a.length ≠ b.length) ∧
    (a.length = b.length → ∃ r, cosineSimilarity a b = Except.ok r) ∧
    (a.length = b.length → ((∀ x ∈ a, x = 0) ∨ (∀ x ∈ b, x = 0)) →
      cosineSimilarity a b = Except.ok 0) := by
  rw [cosineSimilarity_eq]
  refine ⟨⟨?_, ?_⟩, ?_, ?_⟩
  · rintro ⟨msg, hmsg⟩
    intro hlen
    rw [if_neg (by simp [hlen])] at hmsg
    revert hmsg
    split <;> simp
  · intro hne
    exact ⟨"Vectors must have the same length", if_pos hne⟩
  · intro hlen
    rw [if_neg (by simp [hlen])]
    split
    · exact ⟨0, rfl⟩
    · exact ⟨_, rfl⟩
  · intro hlen hzero
    rw [if_neg (by simp [hlen])]
    have hguard : Real.sqrt (a.foldl (fun acc x => acc + x * x) 0) = 0 ∨
        Real.sqrt (b.foldl (fun acc x => acc + x * x) 0) = 0 := by
      cases hzero with
      | inl h => exact Or.inl (by rw [foldl_sumSq_of_all_zero a 0 h, Real.sqrt_zero])
      | inr h => exact Or.inr (by rw [foldl_sumSq_of_all_zero b 0 h, Real.sqrt_zero])
    rw [if_pos hguard]

/-- Witness for the C10 theorem: a same-length pair produces a value, and
the all-zero vector yields similarity 0 through the zero-norm guard. -/
theorem c10_cosine_total_and_guarded_witness :
    (∃ r, cosineSimilarity [(1:ℝ)] [(1:ℝ)] = Except.ok r) ∧
    cosineSimilarity [(0:ℝ)] [(0:ℝ)] = Except.ok 0 :=
  ⟨(c10_cosine_total_and_guarded [(1:ℝ)] [(1:ℝ)]).2.1 rfl,
   (c10_cosine_total_and_guarded [(0:ℝ)] [(0:ℝ)]).2.2 rfl (Or.inl (by simp))⟩

/-- Branch equation of the upload handler: when the user exists and no
(owner, workId) row does, the create branch runs — the row is appended and,
in configured mode, the owner tuple and then the viewer tuple are written
with failures swallowed. -/
theorem uploadHandler_create_eq (configured : Bool) (writeOk : FgaWriteOk) (st : SysState)
    (userEmail workId : String) (workTitle orcidId researcherName : Option String)
    (origName uniqueFileName newId : String) (now : Nat) (user : UserRow)
    (hw : (workId == "") = false) (he : (userEmail == "") = false)
    (hu : st.db.users.find? (fun u => u.email == userEmail) = some user)
    (hnew : st.db.uploadedPdfs.find? (fun p => p.ownerId == user.id && p.workId == workId) = none) :
    uploadHandler configured writeOk st userEmail workId workTitle orcidId researcherName
        origName uniqueFileName newId now =
      ({ db := { st.db with uploadedPdfs := st.db.uploadedPdfs ++
            [{ id := newId
               ownerId := user.id
               workId := workId
               workTitle := workTitle
               orcidId := orcidId
               researcherName := researcherName
               fileName := uniqueFileName
               originalName := origName
               uploadedAt := now }] }
         tuples :=
           if configured then
             match grantDocumentAccess writeOk st.tuples userEmail newId "owner" with
             | Except.ok t1 =>
               match grantDocumentAccess writeOk t1 userEmail newId "viewer" with
               | Except.ok t2 => t2
               | Except.error _ => t1
             | Except.error _ => st.tuples
           else st.tuples }
       , UploadResp.success newId workId origName now) := by
  simp [uploadHandler, hw, he, hu, hnew]

/-- Branch equation of the upload handler: when an (owner, workId) row
exists, the update branch rewrites it in place and never touches the
graph. -/
theorem uploadHandler_update_eq (configured : Bool) (writeOk : FgaWriteOk) (st : SysState)
    (userEmail workId : String) (workTitle orcidId researcherName : Option String)
    (origName uniqueFileName newId : String) (now : Nat) (user : UserRow) (existing : PdfRow)
    (hw : (workId == "") = false) (he : (userEmail == "") = false)
    (hu : st.db.users.find? (fun u => u.email == userEmail) = some user)
    (hex : st.db.uploadedPdfs.find? (fun p => p.ownerId == user.id && p.workId == workId)
      = some existing) :
    uploadHandler configured writeOk st userEmail workId workTitle orcidId researcherName
        origName uniqueFileName newId now =
      ({ db := { st.db with uploadedPdfs := st.db.uploadedPdfs.map (fun p =>
            if p.id == existing.id then
              { existing with
                fileName := uniqueFileName
                originalName := origName
                uploadedAt := now
                workTitle := jsOr workTitle existing.workTitle
                orcidId := jsOr orcidId existing.orcidId
                researcherName := jsOr researcherName existing.researcherName }
            else p) }
         tuples := st.tuples }
       , UploadResp.success existing.id existing.workId origName now) := by
  simp [uploadHandler, hw, he, hu, hex]

/-- Reply of a found and accepted share request. -/
theorem acceptHandler_resp_eq (configured : Bool) (writeOk : FgaWriteOk) (st : SysState)
    (userEmail reqId : String) (user : UserRow) (shareRequest : ShareRequestRow) (pdf : PdfRow)
    (he : (userEmail == "") = false)
    (hu : st.db.users.find? (fun u => u.email == userEmail) = some user)
    (hr : st.db.pdfShareRequests.find? (fun r => r.id == reqId && r.toUserId == user.id)
      = some shareRequest)
    (hp : st.db.uploadedPdfs.find? (fun p => p.id == shareRequest.pdfId) = some pdf) :
    (acceptHandler configured writeOk st userEmail reqId).2 = AcceptResp.success := by
  simp [acceptHandler, he, hu, hr, hp]

/-- Access Grant table after a successful accept: the (pdf, accepter) row is
inserted unless it already exists. -/
theorem acceptHandler_pdfAccess_eq (configured : Bool) (writeOk : FgaWriteOk) (st : SysState)
    (userEmail reqId : String) (user : UserRow) (shareRequest : ShareRequestRow) (pdf : PdfRow)
    (he : (userEmail == "") = false)
    (hu : st.db.users.find? (fun u => u.email == userEmail) = some user)
    (hr : st.db.pdfShareRequests.find? (fun r => r.id == reqId && r.toUserId == user.id)
      = some shareRequest)
    (hp : st.db.uploadedPdfs.find? (fun p => p.id == shareRequest.pdfId) = some pdf) :
    (acceptHandler configured writeOk st userEmail reqId).1.db.pdfAccess =
      if st.db.pdfAccess.any (fun a => a.pdfId == shareRequest.pdfId && a.userId == user.id)
      then st.db.pdfAccess
      else st.db.pdfAccess ++ [{ pdfId := shareRequest.pdfId, userId := user.id }] := by
  simp [acceptHandler, he, hu, hr, hp, linkResearcher_pdfAccess, apply_ite]

/-- Share-request table after a successful accept: the accepted row is
deleted. -/
theorem acceptHandler_shareRequests_eq (configured : Bool) (writeOk : FgaWriteOk) (st : SysState)
    (userEmail reqId : String) (user : UserRow) (shareRequest : ShareRequestRow) (pdf : PdfRow)
    (he : (userEmail == "") = false)
    (hu : st.db.users.find? (fun u => u.email == userEmail) = some user)
    (hr : st.db.pdfShareRequests.find? (fun r => r.id == reqId && r.toUserId == user.id)
      = some shareRequest)
    (hp : st.db.uploadedPdfs.find? (fun p => p.id == shareRequest.pdfId) = some pdf) :
    (acceptHandler configured writeOk st userEmail reqId).1.db.pdfShareRequests =
      st.db.pdfShareRequests.filter (fun r => !(r.id == reqId)) := by
  simp [acceptHandler, he, hu, hr, hp, linkResearcher_pdfShareRequests, apply_ite]

/-- Tuple set after a successful accept: one viewer tuple write, its failure
swallowed. -/
theorem acceptHandler_tuples_eq (configured : Bool) (writeOk : FgaWriteOk) (st : SysState)
    (userEmail reqId : String) (user : UserRow) (shareRequest : ShareRequestRow) (pdf : PdfRow)
    (he : (userEmail == "") = false)
    (hu : st.db.users.find? (fun u => u.email == userEmail) = some user)
    (hr : st.db.pdfShareRequests.find? (fun r => r.id == reqId && r.toUserId == user.id)
      = some shareRequest)
    (hp : st.db.uploadedPdfs.find? (fun p => p.id == shareRequest.pdfId) = some pdf) :
    (acceptHandler configured writeOk st userEmail reqId).1.tuples =
      if configured then
        match grantDocumentAccess writeOk st.tuples userEmail shareRequest.pdfId "viewer" with
        | Except.ok t => t
        | Except.error _ => st.tuples
      else st.tuples := by
  simp [acceptHandler, he, hu, hr, hp]

/-- C4: in configured mode with a healthy graph service, the create branch
of upload persists the Document row for the owner and writes exactly two
tuples, (owner-user, owner, doc) and then (owner-user, viewer, doc), so
after the upload both the owner check and the viewer check hold against the
graph. -/
theorem c4_upload_writes_owner_and_viewer_tuples
    (writeOk : FgaWriteOk) (st : SysState)
    (userEmail workId : String) (workTitle orcidId researcherName : Option String)
    (origName uniqueFileName newId : String) (now : Nat) (user : UserRow)
    (hw : (workId == "") = false) (he : (userEmail == "") = false)
    (hu : st.db.users.find? (fun u => u.email == userEmail) = some user)
    (hnew : st.db.uploadedPdfs.find? (fun p => p.ownerId == user.id && p.workId == workId) = none)
    (hok1 : writeOk (userTag userEmail) "owner" (docTag newId) = true)
    (hok2 : writeOk (userTag userEmail) "viewer" (docTag newId) = true) :
    (uploadHandler true writeOk st userEmail workId workTitle orcidId researcherName
        origName uniqueFileName newId now).2 = UploadResp.success newId workId origName now ∧
    (uploadHandler true writeOk st userEmail workId workTitle orcidId researcherName
        origName uniqueFileName newId now).1.tuples =
      st.tuples ++ [(userTag userEmail, "owner", docTag newId),
                    (userTag userEmail, "viewer", docTag newId)] ∧
    checkRelation (uploadHandler true writeOk st userEmail workId workTitle orcidId researcherName
        origName uniqueFileName newId now).1.tuples userEmail "owner" newId = true ∧
    checkRelation (uploadHandler true writeOk st userEmail workId workTitle orcidId researcherName
        origName uniqueFileName newId now).1.tuples userEmail "viewer" newId = true ∧
    (∃ p ∈ (uploadHandler true writeOk st userEmail workId workTitle orcidId researcherName
        origName uniqueFileName newId now).1.db.uploadedPdfs,
      p.id = newId ∧ p.ownerId = user.id) := by
  have hrun := uploadHandler_create_eq true writeOk st userEmail workId workTitle orcidId
    researcherName origName uniqueFileName newId now user hw he hu hnew
  have hg1 : grantDocumentAccess writeOk st.tuples userEmail newId "owner"
      = Except.ok (st.tuples ++ [(userTag userEmail, "owner", docTag newId)]) := by
    simp [grantDocumentAccess, hok1]
  have hg2 : grantDocumentAccess writeOk
        (st.tuples ++ [(userTag userEmail, "owner", docTag newId)]) userEmail newId "viewer"
      = Except.ok ((st.tuples ++ [(userTag userEmail, "owner", docTag newId)])
          ++ [(userTag userEmail, "viewer", docTag newId)]) := by
    simp [grantDocumentAccess, hok2]
  have htup : (uploadHandler true writeOk st userEmail workId workTitle orcidId researcherName
      origName uniqueFileName newId now).1.tuples =
      st.tuples ++ [(userTag userEmail, "owner", docTag newId),
                    (userTag userEmail, "viewer", docTag newId)] := by
    rw [hrun]
    simp [hg1, hg2]
  refine ⟨by rw [hrun], htup, ?_, ?_, ?_⟩
  · rw [htup]
    simp [checkRelation]
  · rw [htup]
    simp [checkRelation]
  · rw [hrun]
    refine ⟨{ id := newId, ownerId := user.id, workId := workId, workTitle := workTitle,
              orcidId := orcidId, researcherName := researcherName, fileName := uniqueFileName,
              originalName := origName, uploadedAt := now }, ?_, rfl, rfl⟩
    simp

/-- Witness for the C4 theorem: alice uploads a new document into the demo
state; both checks hold afterwards. -/
theorem c4_upload_writes_owner_and_viewer_tuples_witness :
    checkRelation (uploadHandler true allWrites demoState "alice" "W1" none none none
      "f.pdf" "file1" "doc1" 7).1.tuples "alice" "owner" "doc1" = true ∧
    checkRelation (uploadHandler true allWrites demoState "alice" "W1" none none none
      "f.pdf" "file1" "doc1" 7).1.tuples "alice" "viewer" "doc1" = true ∧
    (uploadHandler true allWrites demoState "alice" "W1" none none none
      "f.pdf" "file1" "doc1" 7).2 = UploadResp.success "doc1" "W1" "f.pdf" 7 := by
  have h := c4_upload_writes_owner_and_viewer_tuples allWrites demoState "alice" "W1"
    none none none "f.pdf" "file1" "doc1" 7 { id := "u1", email := "alice" }
    rfl rfl rfl rfl rfl rfl
  exact ⟨h.2.2.1, h.2.2.2.1, h.1⟩

/-- C5: a graph tuple-write failure never blocks the triggering business
operation.  First conjunct: if either owner- or viewer-tuple write would
throw during upload, the Document row is still persisted and the upload
still replies success.  Second conjunct: if the viewer-tuple write would
throw during share-accept, the Access Grant row still exists afterwards and
the accept still replies success. -/
theorem c5_tuple_write_failure_not_blocking :
    (∀ (writeOk : FgaWriteOk) (st : SysState) (userEmail workId : String)
        (workTitle orcidId researcherName : Option String)
        (origName uniqueFileName newId : String) (now : Nat) (user : UserRow),
      (workId == "") = false → (userEmail == "") = false →
      st.db.users.find? (fun u => u.email == userEmail) = some user →
      st.db.uploadedPdfs.find? (fun p => p.ownerId == user.id && p.workId == workId) = none →
      (writeOk (userTag userEmail) "owner" (docTag newId) = false ∨
        writeOk (userTag userEmail) "viewer" (docTag newId) = false) →
      (uploadHandler true writeOk st userEmail workId workTitle orcidId researcherName
          origName uniqueFileName newId now).2 = UploadResp.success newId workId origName now ∧
      ∃ p ∈ (uploadHandler true writeOk st userEmail workId workTitle orcidId researcherName
          origName uniqueFileName newId now).1.db.uploadedPdfs,
        p.id = newId ∧ p.ownerId = user.id) ∧
    (∀ (writeOk : FgaWriteOk) (st : SysState) (userEmail reqId : String) (user : UserRow)
        (shareRequest : ShareRequestRow) (pdf : PdfRow),
      (userEmail == "") = false →
      st.db.users.find? (fun u => u.email == userEmail) = some user →
      st.db.pdfShareRequests.find? (fun r => r.id == reqId && r.toUserId == user.id)
        = some shareRequest →
      st.db.uploadedPdfs.find? (fun p => p.id == shareRequest.pdfId) = some pdf →
      writeOk (userTag userEmail) "viewer" (docTag shareRequest.pdfId) = false →
      (acceptHandler true writeOk st userEmail reqId).2 = AcceptResp.success ∧
      ∃ a ∈ (acceptHandler true writeOk st userEmail reqId).1.db.pdfAccess,
        a.pdfId = shareRequest.pdfId ∧ a.userId = user.id) := by
  constructor
  · intro writeOk st userEmail workId workTitle orcidId researcherName origName uniqueFileName
      newId now user hw he hu hnew hfail
    have hrun := uploadHandler_create_eq true writeOk st userEmail workId workTitle orcidId
      researcherName origName uniqueFileName newId now user hw he hu hnew
    refine ⟨by rw [hrun], ?_⟩
    rw [hrun]
    refine ⟨{ id := newId, ownerId := user.id, workId := workId, workTitle := workTitle,
              orcidId := orcidId, researcherName := researcherName, fileName := uniqueFileName,
              originalName := origName, uploadedAt := now }, ?_, rfl, rfl⟩
    simp
  · intro writeOk st userEmail reqId user shareRequest pdf he hu hr hp hfail
    refine ⟨acceptHandler_resp_eq true writeOk st userEmail reqId user shareRequest pdf
      he hu hr hp, ?_⟩
    rw [acceptHandler_pdfAccess_eq true writeOk st userEmail reqId user shareRequest pdf
      he hu hr hp]
    by_cases hc : st.db.pdfAccess.any
        (fun a => a.pdfId == shareRequest.pdfId && a.userId == user.id) = true
    · rw [if_pos hc]
      obtain ⟨a, ha, hpred⟩ := List.any_eq_true.mp hc
      rw [Bool.and_eq_true] at hpred
      exact ⟨a, ha, beq_iff_eq.mp hpred.1, beq_iff_eq.mp hpred.2⟩
    · rw [if_neg hc]
      exact ⟨{ pdfId := shareRequest.pdfId, userId := user.id }, by simp, rfl, rfl⟩

/-- Witness for the C5 theorem: with a service that rejects every tuple
write, alice's upload and bob's accept both still report success. -/
theorem c5_tuple_write_failure_not_blocking_witness :
    (uploadHandler true noWrites demoState "alice" "W1" none none none
      "f.pdf" "file1" "doc1" 7).2 = UploadResp.success "doc1" "W1" "f.pdf" 7 ∧
    (acceptHandler true noWrites acceptState "bob" "req1").2 = AcceptResp.success := by
  have h1 := c5_tuple_write_failure_not_blocking.1 noWrites demoState "alice" "W1"
    none none none "f.pdf" "file1" "doc1" 7 { id := "u1", email := "alice" }
    rfl rfl rfl rfl (Or.inl rfl)
  have h2 := c5_tuple_write_failure_not_blocking.2 noWrites acceptState "bob" "req1"
    { id := "u2", email := "bob" } { id := "req1", pdfId := "doc1", fromUserId := "u1", toUserId := "u2" }
    sharedPdf rfl rfl rfl rfl rfl
  exact ⟨h1.1, h2.1⟩

/-- C6: accepting a pending share request addressed to the accepter yields
the state the claim describes — the Access Grant relational row for
(document, accepter) exists, in configured mode with a healthy service the
(accepter, viewer, document) tuple is written so the viewer check holds,
the share request row is gone, and the handler reports success. -/
theorem c6_accept_share_request_effects (writeOk : FgaWriteOk) (st : SysState)
    (userEmail reqId : String) (user : UserRow) (shareRequest : ShareRequestRow) (pdf : PdfRow)
    (he : (userEmail == "") = false)
    (hu : st.db.users.find? (fun u => u.email == userEmail) = some user)
    (hr : st.db.pdfShareRequests.find? (fun r => r.id == reqId && r.toUserId == user.id)
      = some shareRequest)
    (hp : st.db.uploadedPdfs.find? (fun p => p.id == shareRequest.pdfId) = some pdf)
    (hok : writeOk (userTag userEmail) "viewer" (docTag shareRequest.pdfId) = true) :
    (∃ a ∈ (acceptHandler true writeOk st userEmail reqId).1.db.pdfAccess,
       a.pdfId = shareRequest.pdfId ∧ a.userId = user.id) ∧
    checkRelation (acceptHandler true writeOk st userEmail reqId).1.tuples
      userEmail "viewer" shareRequest.pdfId = true ∧
    (∀ r ∈ (acceptHandler true writeOk st userEmail reqId).1.db.pdfShareRequests,
      r.id ≠ reqId) ∧
    (acceptHandler true writeOk st userEmail reqId).2 = AcceptResp.success := by
  refine ⟨?_, ?_, ?_,
    acceptHandler_resp_eq true writeOk st userEmail reqId user shareRequest pdf he hu hr hp⟩
  · rw [acceptHandler_pdfAccess_eq true writeOk st userEmail reqId user shareRequest pdf
      he hu hr hp]
    by_cases hc : st.db.pdfAccess.any
        (fun a => a.pdfId == shareRequest.pdfId && a.userId == user.id) = true
    · rw [if_pos hc]
      obtain ⟨a, ha, hpred⟩ := List.any_eq_true.mp hc
      rw [Bool.and_eq_true] at hpred
      exact ⟨a, ha, beq_iff_eq.mp hpred.1, beq_iff_eq.mp hpred.2⟩
    · rw [if_neg hc]
      exact ⟨{ pdfId := shareRequest.pdfId, userId := user.id }, by simp, rfl, rfl⟩
  · rw [acceptHandler_tuples_eq true writeOk st userEmail reqId user shareRequest pdf
      he hu hr hp]
    have hg : grantDocumentAccess writeOk st.tuples userEmail shareRequest.pdfId "viewer"
        = Except.ok (st.tuples ++ [(userTag userEmail, "viewer", docTag shareRequest.pdfId)]) := by
      simp [grantDocumentAccess, hok]
    simp [hg, checkRelation]
  · rw [acceptHandler_shareRequests_eq true writeOk st userEmail reqId user shareRequest pdf
      he hu hr hp]
    intro r hr2
    have hpred := (List.mem_filter.mp hr2).2
    simpa using hpred

/-- Witness for the C6 theorem: bob accepts alice's pending request. -/
theorem c6_accept_share_request_effects_witness :
    checkRelation (acceptHandler true allWrites acceptState "bob" "req1").1.tuples
      "bob" "viewer" "doc1" = true ∧
    (acceptHandler true allWrites acceptState "bob" "req1").2 = AcceptResp.success := by
  have h := c6_accept_share_request_effects allWrites acceptState "bob" "req1"
    { id := "u2", email := "bob" } { id := "req1", pdfId := "doc1", fromUserId := "u1", toUserId := "u2" }
    sharedPdf rfl rfl rfl rfl rfl
  exact ⟨h.2.1, h.2.2.2⟩

/-- C8: re-uploading under the same (owner, work reference) pair rewrites
the existing Document row in place — the table keeps its size, a row with
the old identifier and the old owner remains, every other row is untouched,
the reply carries the old identifier, and no tuples are written. -/
theorem c8_reupload_updates_in_place (configured : Bool) (writeOk : FgaWriteOk) (st : SysState)
    (userEmail workId : String) (workTitle orcidId researcherName : Option String)
    (origName uniqueFileName newId : String) (now : Nat) (user : UserRow) (existing : PdfRow)
    (hw : (workId == "") = false) (he : (userEmail == "") = false)
    (hu : st.db.users.find? (fun u => u.email == userEmail) = some user)
    (hex : st.db.uploadedPdfs.find? (fun p => p.ownerId == user.id && p.workId == workId)
      = some existing) :
    (uploadHandler configured writeOk st userEmail workId workTitle orcidId researcherName
        origName uniqueFileName newId now).1.db.uploadedPdfs.length
      = st.db.uploadedPdfs.length ∧
    (∃ p ∈ (uploadHandler configured writeOk st userEmail workId workTitle orcidId researcherName
        origName uniqueFileName newId now).1.db.uploadedPdfs,
      p.id = existing.id ∧ p.ownerId = existing.ownerId) ∧
    (∀ p ∈ st.db.uploadedPdfs, p.id ≠ existing.id →
      p ∈ (uploadHandler configured writeOk st userEmail workId workTitle orcidId researcherName
        origName uniqueFileName newId now).1.db.uploadedPdfs) ∧
    (uploadHandler configured writeOk st userEmail workId workTitle orcidId researcherName
        origName uniqueFileName newId now).2
      = UploadResp.success existing.id existing.workId origName now ∧
    (uploadHandler configured writeOk st userEmail workId workTitle orcidId researcherName
        origName uniqueFileName newId now).1.tuples = st.tuples := by
  have hrun := uploadHandler_update_eq configured writeOk st userEmail workId workTitle orcidId
    researcherName origName uniqueFileName newId now user existing hw he hu hex
  have hmem : existing ∈ st.db.uploadedPdfs := List.mem_of_find?_eq_some hex
  refine ⟨by rw [hrun]; simp, ?_, ?_, by rw [hrun], by rw [hrun]⟩
  · rw [hrun]
    refine ⟨{ existing with
        fileName := uniqueFileName
        originalName := origName
        uploadedAt := now
        workTitle := jsOr workTitle existing.workTitle
        orcidId := jsOr orcidId existing.orcidId
        researcherName := jsOr researcherName existing.researcherName },
      List.mem_map.mpr ⟨existing, hmem, by simp⟩, rfl, rfl⟩
  · intro p hp hne
    rw [hrun]
    refine List.mem_map.mpr ⟨p, hp, ?_⟩
    simp [hne]

/-- Witness for the C8 theorem: alice re-uploads work W1; the stored row
keeps id doc1 and owner u1 and the table stays at one row. -/
theorem c8_reupload_updates_in_place_witness :
    (uploadHandler false allWrites acceptState "alice" "W1" none none none
      "g.pdf" "file2" "docX" 9).1.db.uploadedPdfs.length
      = acceptState.db.uploadedPdfs.length ∧
    (uploadHandler false allWrites acceptState "alice" "W1" none none none
      "g.pdf" "file2" "docX" 9).2 = UploadResp.success "doc1" "W1" "g.pdf" 9 := by
  have h := c8_reupload_updates_in_place false allWrites acceptState "alice" "W1"
    none none none "g.pdf" "file2" "docX" 9 { id := "u1", email := "alice" } sharedPdf
    rfl rfl rfl rfl
  exact ⟨h.1, h.2.2.2.1⟩
